import Mathlib

/-
Verification of the GitBrowse repository-file resolution and retrieval layer.

This file gives a shallow embedding, in Lean 4, of the core functions of the
GitBrowse Python program (package `gitbrowse`): the GitHub source resolver
(`gitbrowse/api/github.py`), its rate-limit and cache decorators
(`gitbrowse/api/utils.py`), the repository service facade
(`gitbrowse/services/repo.py`), and the download service
(`gitbrowse/services/downloader.py`).  Pure computations are translated to
Lean functions; calls to the network, the HTML parser and the clock are
abstracted as explicit oracle parameters, so every definition is executable
and every theorem is about the translated code.
-/

namespace GitBrowse

/-! ## Data model

`FileRec` is the normalized file/directory record shape produced by both the
API path and the HTML-scraping path of `GitHubAPI.get_repository_files`
(the Python code builds dictionaries with exactly these six keys). -/

structure FileRec where
  name : String
  path : String
  type : String
  url  : String
  size : Nat
  sha  : String
deriving DecidableEq, Repr

/-! ## Python string primitives used by the source

The Python code compares and manipulates strings; we model the fragments it
uses over `List Char` / `String` so that everything reduces by `decide`. -/

/-- Model of Python `str.lower()` restricted to ASCII letters (the only case
the repository's own identifiers exercise): lower-case every character. -/
def pyLowerStr (s : String) : String := String.mk (s.data.map Char.toLower)

/-- Lexicographic order on character lists by code point: the order Python
uses when comparing two `str` values with `<=`. -/
def lexLeChars : List Char → List Char → Bool
  | [], _ => true
  | _ :: _, [] => false
  | a :: as, b :: bs => if a = b then lexLeChars as bs else decide (a < b)

/-- Python `s1 <= s2` on strings. -/
def pyStrLe (a b : String) : Bool := lexLeChars a.data b.data

/-- Python `s.split(sep, maxsplit)` for a one-character separator `sep`:
split on at most `maxsplit` occurrences, scanning left to right. -/
def pySplitChar (sep : Char) : Nat → List Char → List (List Char)
  | _, [] => [[]]
  | 0, s => [s]
  | m + 1, x :: xs =>
    if x = sep then [] :: pySplitChar sep m xs
    else
      match pySplitChar sep (m + 1) xs with
      | [] => [[x]]
      | h :: t => (x :: h) :: t

/-- Helper for `pyReplaceDel`: delete every (non-overlapping, leftmost-first)
occurrence of the pattern `p :: ps` from the list. -/
def replaceDelAux (p : Char) (ps : List Char) : List Char → List Char
  | [] => []
  | x :: xs =>
    if x = p ∧ ps.isPrefixOf xs then replaceDelAux p ps (xs.drop ps.length)
    else x :: replaceDelAux p ps xs
termination_by l => l.length
decreasing_by
  · simp [List.length_drop]; omega
  · simp

/-- Model of Python `s.replace(pat, "")`: delete every occurrence of `pat`.
(The source only ever replaces with the empty string.) -/
def pyReplaceDel (pat : String) (s : String) : String :=
  match pat.data with
  | [] => s
  | p :: ps => String.mk (replaceDelAux p ps s.data)

/-- Model of Python `s.startswith(pre)`. -/
def pyStartsWith (pre s : String) : Bool := pre.data.isPrefixOf s.data

/-- Model of Python `s.lstrip(c)` for a single strip character. -/
def pyLstrip (c : Char) (s : String) : String :=
  String.mk (s.data.dropWhile (· = c))

/-! ## Source Resolver: directory listings (`GitHubAPI.get_repository_files`)

Both listing paths end with
`sorted(files, key=lambda x: (0 if x["type"] == "dir" else 1, x["name"].lower()))`
(github.py lines 296 and 355).  Python's `sorted` is a deterministic stable
sort by the key tuple; we embed it as a merge sort under the tuple order. -/

/-- First component of the Python sort key:
`0 if x["type"] == "dir" else 1`. -/
def typeRank (r : FileRec) : Nat := if r.type = "dir" then 0 else 1

/-- The order underlying the Python key tuple
`(0 if type == "dir" else 1, name.lower())`: compare ranks, break ties by
the case-folded name. -/
def fileSortKeyLe (a b : FileRec) : Bool :=
  if typeRank a = typeRank b then pyStrLe (pyLowerStr a.name) (pyLowerStr b.name)
  else decide (typeRank a < typeRank b)

/-- Embedding of the `sorted(files, key=...)` call shared by both listing
paths of `get_repository_files`. -/
def sortFiles (files : List FileRec) : List FileRec :=
  files.mergeSort fileSortKeyLe

/-- An API `contents` item, as consumed by the loop at github.py:280-293:
the fields the code reads from each JSON object.  `download_url` is `none`
when the key is absent (Python `item.get("download_url", "")` then yields
the default `""`). -/
structure ApiItem where
  type : String
  name : String
  path : String
  download_url : Option String
  size : Nat
  sha : String
deriving DecidableEq, Repr

/-- The record built from one API item (github.py:286-293). -/
def apiToRec (item : ApiItem) : FileRec :=
  { name := item.name
    path := item.path
    type := item.type
    url := if item.type = "file" then item.download_url.getD "" else ""
    size := item.size
    sha := item.sha }

/-- The API path of `get_repository_files` after a successful response:
normalize every item, then sort (github.py:280-296). -/
def get_repository_files_api (items : List ApiItem) : List FileRec :=
  sortFiles (items.map apiToRec)

/-- One scraped table row of `_scrape_repository_files` (github.py:330-352):
`dirIcon` is whether `"icon-directory"` occurs in the svg class list,
`hasLink` whether the `Link--primary` anchor was found, `linkText` its
stripped text, and `itemPath` is `link['href'].split(f'/{user}/{repo}/')[1]`. -/
structure ScrapeRow where
  dirIcon : Bool
  hasLink : Bool
  linkText : String
  itemPath : String
deriving DecidableEq, Repr

/-- The path suffix used in the scraped raw URL (github.py:342-343):
`raw_path = item_path.replace(f"blob/{branch}/", "")`, then
`raw_path.split('/', 1)[1] if '/' in raw_path else raw_path`. -/
def scrapeRawTail (branch itemPath : String) : String :=
  let rawPath := pyReplaceDel ("blob/" ++ branch ++ "/") itemPath
  if rawPath.data.contains '/' then
    String.mk ((pySplitChar '/' 1 rawPath.data).getD 1 [])
  else rawPath

/-- The record built from one scraped row (github.py:331-352). -/
def scrapeToRec (username repoName branch : String) (row : ScrapeRow) : FileRec :=
  let fileType := if row.dirIcon then "dir" else "file"
  let downloadUrl :=
    if fileType = "file" then
      "https://raw.githubusercontent.com/" ++ username ++ "/" ++ repoName ++ "/"
        ++ branch ++ "/" ++ scrapeRawTail branch row.itemPath
    else ""
  let segs := pySplitChar '/' 2 row.itemPath.data
  { name := row.linkText
    path := if segs.length > 2 then String.mk (segs.getD 2 []) else ""
    type := fileType
    url := downloadUrl
    size := 0
    sha := "" }

/-- The scraping path of `get_repository_files`: rows without an anchor are
skipped (`if link:`), the rest are normalized and sorted
(github.py:330-355). -/
def scrape_repository_files (username repoName branch : String)
    (rows : List ScrapeRow) : List FileRec :=
  sortFiles ((rows.filter (·.hasLink)).map (scrapeToRec username repoName branch))

/-- The ordering contract claimed for directory listings: every earlier entry
either has a strictly smaller type rank (directories before files) or the
same rank and a case-insensitively smaller-or-equal name. -/
def listingOrdered (l : List FileRec) : Prop :=
  l.Pairwise (fun a b =>
    typeRank a < typeRank b ∨
      (typeRank a = typeRank b ∧ pyStrLe (pyLowerStr a.name) (pyLowerStr b.name) = true))

theorem lexLeChars_total (a b : List Char) :
    lexLeChars a b = true ∨ lexLeChars b a = true := by
  induction a generalizing b with
  | nil => left; rfl
  | cons x xs ih =>
    cases b with
    | nil => right; rfl
    | cons y ys =>
      by_cases hxy : x = y
      · subst hxy
        rcases ih ys with h | h
        · left; simpa [lexLeChars] using h
        · right; simpa [lexLeChars] using h
      · rcases lt_trichotomy x y with h | h | h
        · left; simp [lexLeChars, hxy, h]
        · exact absurd h hxy
        · right; simp [lexLeChars, Ne.symm hxy, h]

theorem lexLeChars_trans (a b c : List Char)
    (hab : lexLeChars a b = true) (hbc : lexLeChars b c = true) :
    lexLeChars a c = true := by
  induction a generalizing b c with
  | nil => rfl
  | cons x xs ih =>
    cases b with
    | nil => simp [lexLeChars] at hab
    | cons y ys =>
      cases c with
      | nil => simp [lexLeChars] at hbc
      | cons z zs =>
        simp only [lexLeChars] at hab hbc ⊢
        by_cases hxy : x = y <;> by_cases hyz : y = z
        · subst hxy; subst hyz
          rw [if_pos rfl] at hab hbc ⊢
          exact ih ys zs hab hbc
        · subst hxy
          rw [if_pos rfl] at hab
          rw [if_neg hyz, decide_eq_true_eq] at hbc
          rw [if_neg hyz, decide_eq_true_eq]
          exact hbc
        · subst hyz
          rw [if_neg hxy, decide_eq_true_eq] at hab
          rw [if_neg hxy, decide_eq_true_eq]
          exact hab
        · rw [if_neg hxy, decide_eq_true_eq] at hab
          rw [if_neg hyz, decide_eq_true_eq] at hbc
          have hxz := lt_trans hab hbc
          rw [if_neg (ne_of_lt hxz), decide_eq_true_eq]
          exact hxz

theorem fileSortKeyLe_total (a b : FileRec) :
    (fileSortKeyLe a b || fileSortKeyLe b a) = true := by
  unfold fileSortKeyLe
  by_cases h : typeRank a = typeRank b
  · rw [if_pos h, if_pos h.symm]
    rcases lexLeChars_total (pyLowerStr a.name).data (pyLowerStr b.name).data with hl | hl
    · simp [pyStrLe, hl]
    · simp [pyStrLe, hl]
  · rw [if_neg h, if_neg (Ne.symm h)]
    rcases Nat.lt_or_ge (typeRank a) (typeRank b) with hlt | hge
    · simp [hlt]
    · have hlt : typeRank b < typeRank a := lt_of_le_of_ne hge (Ne.symm h)
      simp [hlt]

theorem fileSortKeyLe_trans (a b c : FileRec)
    (hab : fileSortKeyLe a b = true) (hbc : fileSortKeyLe b c = true) :
    fileSortKeyLe a c = true := by
  unfold fileSortKeyLe at hab hbc ⊢
  by_cases h1 : typeRank a = typeRank b <;> by_cases h2 : typeRank b = typeRank c
  · rw [if_pos h1] at hab
    rw [if_pos h2] at hbc
    rw [if_pos (h1.trans h2)]
    exact lexLeChars_trans _ _ _ hab hbc
  · rw [if_neg h2, decide_eq_true_eq] at hbc
    have hac : typeRank a < typeRank c := h1 ▸ hbc
    rw [if_neg (Nat.ne_of_lt hac), decide_eq_true_eq]
    exact hac
  · rw [if_neg h1, decide_eq_true_eq] at hab
    have hac : typeRank a < typeRank c := h2 ▸ hab
    rw [if_neg (Nat.ne_of_lt hac), decide_eq_true_eq]
    exact hac
  · rw [if_neg h1, decide_eq_true_eq] at hab
    rw [if_neg h2, decide_eq_true_eq] at hbc
    have hac : typeRank a < typeRank c := lt_trans hab hbc
    rw [if_neg (Nat.ne_of_lt hac), decide_eq_true_eq]
    exact hac

theorem sortFiles_ordered (l : List FileRec) : listingOrdered (sortFiles l) := by
  have hp := @List.sorted_mergeSort FileRec fileSortKeyLe
    (fun a b c hab hbc => fileSortKeyLe_trans a b c hab hbc)
    (fun a b => fileSortKeyLe_total a b) l
  refine hp.imp ?_
  intro a b hab
  unfold fileSortKeyLe at hab
  by_cases h : typeRank a = typeRank b
  · right; exact ⟨h, by simpa [h] using hab⟩
  · left; simpa [h] using hab

theorem sortFiles_perm (l : List FileRec) : (sortFiles l).Perm l :=
  List.mergeSort_perm l fileSortKeyLe

/-- Claim C1: every directory listing returned by `get_repository_files`, on
both the API path and the HTML-scraping path, lists all `"dir"` entries
before all `"file"` entries and is case-insensitively alphabetical by name
within each group; the output is a permutation of the normalized input
records, and for a fixed input the order is deterministic across repeated
calls (the embedding is a pure function, so determinism is the trivial
final conjunct). -/
theorem listing_sort_contract_c1 (items : List ApiItem)
    (username repoName branch : String) (rows : List ScrapeRow) :
    listingOrdered (get_repository_files_api items)
    ∧ (get_repository_files_api items).Perm (items.map apiToRec)
    ∧ listingOrdered (scrape_repository_files username repoName branch rows)
    ∧ (scrape_repository_files username repoName branch rows).Perm
        ((rows.filter (·.hasLink)).map (scrapeToRec username repoName branch))
    ∧ get_repository_files_api items = get_repository_files_api items :=
  ⟨sortFiles_ordered _, sortFiles_perm _, sortFiles_ordered _, sortFiles_perm _, rfl⟩

/-! ## FileRecord url invariant (claim C6)

On the API path the `url` field is `download_url if file_type == "file" else ""`
(github.py:290); on the scraping path it is a formatted
`https://raw.githubusercontent.com/...` URL for files and `""` otherwise
(github.py:339-349). -/

theorem append_ne_empty (s t : String) (hs : s ≠ "") : s ++ t ≠ "" := by
  intro he
  have hd : s.data ++ t.data = [] := by
    rw [← String.data_append, he]
  exact hs (String.ext (List.append_eq_nil.mp hd).1)

/-- Claim C6: every record produced by a directory listing, on both the API
path and the scraping path, has `url = ""` when its `type` is `"dir"`, and a
non-empty `url` when its `type` is `"file"` — on the API path under the
well-formedness of the successful response (every `"file"` item of the JSON
carries a non-empty `download_url`, which is what GitHub returns on
success), and on the scraping path unconditionally (the URL is built by
formatting onto the literal `https://raw.githubusercontent.com/` base). -/
theorem filerecord_url_invariant_c6 (items : List ApiItem)
    (username repoName branch : String) (rows : List ScrapeRow)
    (hwf : ∀ it ∈ items, it.type = "file" → it.download_url.getD "" ≠ "") :
    (∀ rec ∈ get_repository_files_api items,
        (rec.type = "dir" → rec.url = "") ∧ (rec.type = "file" → rec.url ≠ ""))
    ∧ (∀ rec ∈ scrape_repository_files username repoName branch rows,
        (rec.type = "dir" → rec.url = "") ∧ (rec.type = "file" → rec.url ≠ "")) := by
  constructor
  · intro rec hmem
    have hmem' : rec ∈ items.map apiToRec :=
      (sortFiles_perm (items.map apiToRec)).mem_iff.mp hmem
    rcases List.mem_map.mp hmem' with ⟨it, hit, rfl⟩
    constructor
    · intro hdir
      have hty : it.type = "dir" := hdir
      have hne : it.type ≠ "file" := by rw [hty]; decide
      simp [apiToRec, hne]
    · intro hfile
      have hty : it.type = "file" := hfile
      simpa [apiToRec, hty] using hwf it hit hty
  · intro rec hmem
    have hmem' : rec ∈ (rows.filter (·.hasLink)).map (scrapeToRec username repoName branch) :=
      (sortFiles_perm _).mem_iff.mp hmem
    rcases List.mem_map.mp hmem' with ⟨row, hrow, rfl⟩
    by_cases hic : row.dirIcon
    · constructor
      · intro _; simp [scrapeToRec, hic]
      · intro hfile
        simp [scrapeToRec, hic] at hfile
    · constructor
      · intro hdir
        simp [scrapeToRec, hic] at hdir
      · intro _
        have hu : (scrapeToRec username repoName branch row).url =
            "https://raw.githubusercontent.com/" ++ username ++ "/" ++ repoName ++ "/"
              ++ branch ++ "/" ++ scrapeRawTail branch row.itemPath := by
          simp [scrapeToRec, hic]
        rw [hu]
        exact append_ne_empty _ _ (append_ne_empty _ _ (append_ne_empty _ _
          (append_ne_empty _ _ (append_ne_empty _ _ (append_ne_empty _ _
            (append_ne_empty _ _ (by decide)))))))

/-- Closed witness for `filerecord_url_invariant_c6`: one concrete API item
list and one concrete scraped row, with the well-formedness hypothesis
discharged by evaluation. -/
theorem filerecord_url_invariant_c6_witness :
    (∀ rec ∈ get_repository_files_api
        [{ type := "file", name := "a.py", path := "a.py",
           download_url := some "https://raw.githubusercontent.com/u/r/main/a.py",
           size := 3, sha := "s" },
         { type := "dir", name := "src", path := "src", download_url := none,
           size := 0, sha := "" }],
        (rec.type = "dir" → rec.url = "") ∧ (rec.type = "file" → rec.url ≠ ""))
    ∧ (∀ rec ∈ scrape_repository_files "u" "r" "main"
        [{ dirIcon := false, hasLink := true, linkText := "a.py",
           itemPath := "blob/main/a.py" }],
        (rec.type = "dir" → rec.url = "") ∧ (rec.type = "file" → rec.url ≠ "")) :=
  filerecord_url_invariant_c6 _ "u" "r" "main" _ (by decide)

/-! ## Directory Walker (claim C2)

`GitHubAPI.get_directory_contents_recursive` (github.py:471-506) lists a
path, emits every entry, and recurses into each `"dir"` entry; the whole
body is wrapped in `try/except` returning `[]`, so a listing that raises
makes exactly that recursive invocation contribute `[]`.  We embed the
potential of each path as a tree: a `DirListing` is either the raised/failed
outcome or the (already sorted) list of entries, each `"dir"` entry carrying
the listing of its own path. -/

inductive DirListing where
  /-- The listing call for this path raises (or all fallbacks are exhausted):
  the walker's `except` branch returns `[]` for this subtree. -/
  | fail : DirListing
  /-- An empty listing. -/
  | nil : DirListing
  /-- A `"file"`-type entry followed by the rest of the listing. -/
  | consFile (r : FileRec) (rest : DirListing) : DirListing
  /-- A `"dir"`-type entry with the listing of its own path, followed by the
  rest of the listing. -/
  | consDir (r : FileRec) (sub : DirListing) (rest : DirListing) : DirListing
deriving DecidableEq, Repr

/-- Embedding of `get_directory_contents_recursive`: emit each entry, then
for a directory splice in the recursive walk of its path; a failing listing
contributes `[]` (the `except` branch at github.py:504-506).  The embedding
is a total function — the Python walk never propagates the exception. -/
def walk : DirListing → List FileRec
  | .fail => []
  | .nil => []
  | .consFile r rest => r :: walk rest
  | .consDir r sub rest => r :: (walk sub ++ walk rest)

/-- Concatenation of two listings of the same directory (used to talk about
the entries before and after a distinguished one). -/
def DirListing.append : DirListing → DirListing → DirListing
  | .fail, _ => .fail
  | .nil, l => l
  | .consFile r rest, l => .consFile r (rest.append l)
  | .consDir r sub rest, l => .consDir r sub (rest.append l)

/-- A listing whose own spine did not fail: what `get_repository_files`
actually hands the walker when the listing call for this path succeeds (a
Python list; `fail` can then only occur as the outcome of a nested
subdirectory's listing). -/
def spineOk : DirListing → Bool
  | .fail => false
  | .nil => true
  | .consFile _ rest => spineOk rest
  | .consDir _ _ rest => spineOk rest

theorem walk_append (a b : DirListing) (ha : spineOk a = true) :
    walk (a.append b) = walk a ++ walk b := by
  induction a with
  | fail => simp [spineOk] at ha
  | nil => simp [DirListing.append, walk]
  | consFile r rest ih =>
    have hr : spineOk rest = true := by simpa [spineOk] using ha
    simp [DirListing.append, walk, ih hr]
  | consDir r sub rest ihs ihr =>
    have hr : spineOk rest = true := by simpa [spineOk] using ha
    simp [DirListing.append, walk, ihr hr]

/-- Claim C2: in the recursive walk, a nested subdirectory entry `r` whose
own listing call fails contributes no descendant entries, while every entry
collected from the siblings before it (`pre`) and after it (`post`) —
including their full recursive contents — is still returned; the walk is a
total function of the tree, so it cannot raise. -/
theorem walk_partial_failure_c2 (pre post : DirListing) (r : FileRec)
    (hpre : spineOk pre = true) :
    walk (pre.append (DirListing.consDir r DirListing.fail post))
      = walk pre ++ r :: walk post := by
  rw [walk_append pre _ hpre]
  simp [walk]

/-- Closed witness for `walk_partial_failure_c2`: a root with a healthy file,
a failing subdirectory, and a healthy subdirectory whose descendants all
survive the sibling's failure. -/
theorem walk_partial_failure_c2_witness :
    walk ((DirListing.consFile
            { name := "a.py", path := "a.py", type := "file", url := "u1", size := 1, sha := "" }
            DirListing.nil).append
          (DirListing.consDir
            { name := "bad", path := "bad", type := "dir", url := "", size := 0, sha := "" }
            DirListing.fail
            (DirListing.consDir
              { name := "ok", path := "ok", type := "dir", url := "", size := 0, sha := "" }
              (DirListing.consFile
                { name := "b.py", path := "ok/b.py", type := "file", url := "u2", size := 2, sha := "" }
                DirListing.nil)
              DirListing.nil)))
      = [{ name := "a.py", path := "a.py", type := "file", url := "u1", size := 1, sha := "" },
         { name := "bad", path := "bad", type := "dir", url := "", size := 0, sha := "" },
         { name := "ok", path := "ok", type := "dir", url := "", size := 0, sha := "" },
         { name := "b.py", path := "ok/b.py", type := "file", url := "u2", size := 2, sha := "" }] := by
  rw [walk_partial_failure_c2 _ _ _ (by decide)]
  rfl

/-! ## Source Resolver: file content (`GitHubAPI.get_file_content`, claim C3)

`get_file_content` (github.py:361-455) first asks the contents API; when the
API path fails (transport error, bad JSON, or a failing stated
`download_url`), it falls back to raw-content URLs for up to three branch
names and finally to scraping the rendered blob page.  HTTP transport and
HTML/JSON parsing are abstracted as oracles (`fetch`, `parseApi`,
`parseCodeLines`); alongside its result the embedding returns the ordered
trace of URLs fetched, so the order of attempted strategies is provable. -/

/-- Outcome of one `session.get` + `raise_for_status`: the body on 2xx, or
the message of the raised `requests.RequestException` otherwise. -/
inductive FetchResult where
  | ok (body : String)
  | err (msg : String)
deriving DecidableEq, Repr

/-- The fields of the parsed contents-API JSON that the code reads:
`content` is the base64-decoded text when `"content"` is present with
`encoding == "base64"`; `download_url` is the `"download_url"` value
(`none` for absent or JSON null). -/
structure ApiFileData where
  content : Option String
  download_url : Option String
deriving DecidableEq, Repr

/-- `f"{self.base_url}/repos/{username}/{repo_name}/contents/{path}"` with
the `ref=branch` query parameter attached by `requests`. -/
def apiContentsUrl (username repoName path branch : String) : String :=
  "https://api.github.com/repos/" ++ username ++ "/" ++ repoName ++ "/contents/"
    ++ path ++ "?ref=" ++ branch

/-- `f"{self.raw_url}/{username}/{repo_name}/{branch_name}/{path}"`. -/
def rawContentUrl (username repoName branchName path : String) : String :=
  "https://raw.githubusercontent.com/" ++ username ++ "/" ++ repoName ++ "/"
    ++ branchName ++ "/" ++ path

/-- `f"{self.web_url}/{username}/{repo_name}/blob/{branch}/{path}"`. -/
def blobPageUrl (username repoName branch path : String) : String :=
  "https://github.com/" ++ username ++ "/" ++ repoName ++ "/blob/" ++ branch
    ++ "/" ++ path

/-- The explicit failure marker returned when the fallback chain fails
(github.py:449 and 453). -/
def errMarker (e : String) : String := "Error retrieving file content: " ++ e

/-- The terminal message for an API response carrying neither inline content
nor a usable download URL (github.py:455). -/
def binaryMarker : String :=
  "Could not retrieve file content. The file may be binary or too large."

/-- The branch list of the raw-URL fallback (github.py:406-410): the given
branch, then `"master"` unless the branch is already (case-insensitively)
`"master"`, then `"main"` likewise. -/
def branches_to_try (branch : String) : List String :=
  [branch]
    ++ (if pyLowerStr branch ≠ "master" then ["master"] else [])
    ++ (if pyLowerStr branch ≠ "main" then ["main"] else [])

/-- Modelled on the spec's words: fall back over the given branch, then
`master`, then `main`, "skipping any branch equal, case-insensitively, to
one already tried". -/
def claimedBranches (branch : String) : List String :=
  let add := fun (tried : List String) (cand : String) =>
    if tried.any (fun b => pyLowerStr b = pyLowerStr cand) then tried
    else tried ++ [cand]
  add (add [branch] "master") "main"

/-- The raw-URL loop of the fallback (github.py:413-422): try each branch in
order, returning the first successful body, threading `last_error`, and
recording the attempted URLs. -/
def tryRawBranches (fetch : String → FetchResult) (username repoName path : String) :
    List String → Option String → Option String × Option String × List String
  | [], lastErr => (none, lastErr, [])
  | b :: bs, lastErr =>
    match fetch (rawContentUrl username repoName b path) with
    | .ok body => (some body, lastErr, [rawContentUrl username repoName b path])
    | .err e =>
      let rest := tryRawBranches fetch username repoName path bs (some e)
      (rest.1, rest.2.1, rawContentUrl username repoName b path :: rest.2.2)

/-- The fallback block of `get_file_content` (github.py:403-449): the raw-URL
loop, then the scraped blob page (code lines joined by newline), then
`raise last_error` caught into the explicit error marker. -/
def get_file_content_fallback (fetch : String → FetchResult)
    (parseCodeLines : String → Option (List String))
    (username repoName path branch : String) : String × List String :=
  match tryRawBranches fetch username repoName path (branches_to_try branch) none with
  | (some body, _, urls) => (body, urls)
  | (none, lastErr, urls) =>
    let hurl := blobPageUrl username repoName branch path
    match fetch hurl with
    | .err e2 => (errMarker e2, urls ++ [hurl])
    | .ok html =>
      match parseCodeLines html with
      | some lines => (String.intercalate "\n" lines, urls ++ [hurl])
      | none =>
        match lastErr with
        | some e => (errMarker e, urls ++ [hurl])
        | none => (binaryMarker, urls ++ [hurl])

/-- Embedding of `get_file_content` (github.py:361-455).  The API branch
returns inline base64 content, or fetches the stated `download_url`; any
`RequestException`/`ValueError`/`KeyError` on that path (modelled as a
failed fetch or a `none` parse) enters the fallback block. -/
def get_file_content (fetch : String → FetchResult)
    (parseApi : String → Option ApiFileData)
    (parseCodeLines : String → Option (List String))
    (username repoName path branch : String) : String × List String :=
  let apiUrl := apiContentsUrl username repoName path branch
  match fetch apiUrl with
  | .err _ =>
    let r := get_file_content_fallback fetch parseCodeLines username repoName path branch
    (r.1, apiUrl :: r.2)
  | .ok body =>
    match parseApi body with
    | none =>
      let r := get_file_content_fallback fetch parseCodeLines username repoName path branch
      (r.1, apiUrl :: r.2)
    | some d =>
      match d.content with
      | some c => (c, [apiUrl])
      | none =>
        match d.download_url with
        | some durl =>
          if durl ≠ "" then
            match fetch durl with
            | .ok t => (t, [apiUrl, durl])
            | .err _ =>
              let r := get_file_content_fallback fetch parseCodeLines username repoName path branch
              (r.1, apiUrl :: durl :: r.2)
          else (binaryMarker, [apiUrl])
        | none => (binaryMarker, [apiUrl])

theorem branches_to_try_eq_claimed (branch : String) :
    branches_to_try branch = claimedBranches branch := by
  unfold branches_to_try claimedBranches
  have hm : pyLowerStr "master" = "master" := by decide
  have hn : pyLowerStr "main" = "main" := by decide
  have hmn : ("master" : String) ≠ "main" := by decide
  by_cases h1 : pyLowerStr branch = "master" <;>
    by_cases h2 : pyLowerStr branch = "main" <;>
      simp_all

theorem tryRawBranches_first_ok (fetch : String → FetchResult)
    (username repoName path : String) (bs1 bs2 : List String) (b : String)
    (body : String)
    (h1 : ∀ b' ∈ bs1, ∃ e, fetch (rawContentUrl username repoName b' path) = .err e)
    (hb : fetch (rawContentUrl username repoName b path) = .ok body) :
    ∀ acc, ∃ le, tryRawBranches fetch username repoName path (bs1 ++ b :: bs2) acc
      = (some body, le, (bs1 ++ [b]).map (fun x => rawContentUrl username repoName x path)) := by
  induction bs1 with
  | nil =>
    intro acc
    exact ⟨acc, by simp [tryRawBranches, hb]⟩
  | cons x xs ih =>
    intro acc
    obtain ⟨e, he⟩ := h1 x (by simp)
    obtain ⟨le, hle⟩ := ih (fun b' hb' => h1 b' (by simp [hb'])) (some e)
    exact ⟨le, by simp [tryRawBranches, he, hle]⟩

theorem tryRawBranches_all_err (fetch : String → FetchResult)
    (username repoName path : String) (bs : List String)
    (h1 : ∀ b' ∈ bs, ∃ e, fetch (rawContentUrl username repoName b' path) = .err e) :
    ∀ acc, ∃ le, tryRawBranches fetch username repoName path bs acc
        = (none, le, bs.map (fun x => rawContentUrl username repoName x path))
      ∧ (bs = [] → le = acc) ∧ (bs ≠ [] → ∃ e, le = some e) := by
  induction bs with
  | nil =>
    intro acc
    exact ⟨acc, by simp [tryRawBranches], fun _ => rfl, by simp⟩
  | cons x xs ih =>
    intro acc
    obtain ⟨e, he⟩ := h1 x (by simp)
    obtain ⟨le, hle, hnil, hcons⟩ := ih (fun b' hb' => h1 b' (by simp [hb'])) (some e)
    refine ⟨le, by simp [tryRawBranches, he, hle], by simp, fun _ => ?_⟩
    cases xs with
    | nil => exact ⟨e, hnil rfl⟩
    | cons y ys => exact hcons (by simp)

theorem errMarker_ne_empty (e : String) : errMarker e ≠ "" :=
  append_ne_empty _ _ (by decide)

/-- Claim C3: when the API path's stated download reference fails, the
fallback strategies run in exactly the claimed order — raw-content URL for
the given branch, then `"master"`, then `"main"`, skipping branches
case-insensitively equal to one already tried, then the scraped blob page
(code lines joined by newline); the first success short-circuits; failure
is reported only after all strategies are exhausted and is then the
explicit non-empty error-marker string. -/
theorem file_content_fallback_order_c3 (fetch : String → FetchResult)
    (parseApi : String → Option ApiFileData)
    (parseCodeLines : String → Option (List String))
    (username repoName path branch : String)
    (body : String) (d : ApiFileData) (durl e : String)
    (hapi : fetch (apiContentsUrl username repoName path branch) = .ok body)
    (hparse : parseApi body = some d)
    (hcontent : d.content = none)
    (hdurl : d.download_url = some durl)
    (hdne : durl ≠ "")
    (hdfail : fetch durl = .err e) :
    (branches_to_try branch = claimedBranches branch)
    ∧ (get_file_content fetch parseApi parseCodeLines username repoName path branch
        = ((get_file_content_fallback fetch parseCodeLines username repoName path branch).1,
           apiContentsUrl username repoName path branch :: durl ::
             (get_file_content_fallback fetch parseCodeLines username repoName path branch).2))
    ∧ (∀ bs1 b bs2 rawBody,
        branches_to_try branch = bs1 ++ b :: bs2 →
        (∀ b' ∈ bs1, ∃ eb, fetch (rawContentUrl username repoName b' path) = .err eb) →
        fetch (rawContentUrl username repoName b path) = .ok rawBody →
        get_file_content_fallback fetch parseCodeLines username repoName path branch
          = (rawBody, (bs1 ++ [b]).map (fun x => rawContentUrl username repoName x path)))
    ∧ ((∀ b' ∈ branches_to_try branch,
          ∃ eb, fetch (rawContentUrl username repoName b' path) = .err eb) →
        (∀ html lines,
          fetch (blobPageUrl username repoName branch path) = .ok html →
          parseCodeLines html = some lines →
          get_file_content_fallback fetch parseCodeLines username repoName path branch
            = (String.intercalate "\n" lines,
               (branches_to_try branch).map (fun x => rawContentUrl username repoName x path)
                 ++ [blobPageUrl username repoName branch path]))
        ∧ ((∃ e2, fetch (blobPageUrl username repoName branch path) = .err e2)
             ∨ (∃ html, fetch (blobPageUrl username repoName branch path) = .ok html
                  ∧ parseCodeLines html = none) →
           ∃ em, get_file_content_fallback fetch parseCodeLines username repoName path branch
              = (errMarker em,
                 (branches_to_try branch).map (fun x => rawContentUrl username repoName x path)
                   ++ [blobPageUrl username repoName branch path])
             ∧ errMarker em ≠ "")) := by
  refine ⟨branches_to_try_eq_claimed branch, ?_, ?_, ?_⟩
  · simp only [get_file_content, hapi, hparse, hcontent, hdurl, if_pos hdne, hdfail]
  · intro bs1 b bs2 rawBody hsplit h1 hb
    obtain ⟨le, hle⟩ :=
      tryRawBranches_first_ok fetch username repoName path bs1 bs2 b rawBody h1 hb none
    unfold get_file_content_fallback
    rw [hsplit, hle]
  · intro hallfail
    constructor
    · intro html lines hhtml hlines
      obtain ⟨le, hle, -, -⟩ :=
        tryRawBranches_all_err fetch username repoName path (branches_to_try branch)
          hallfail none
      simp only [get_file_content_fallback, hle, hhtml, hlines]
    · intro hscrape
      obtain ⟨le, hle, -, hcons⟩ :=
        tryRawBranches_all_err fetch username repoName path (branches_to_try branch)
          hallfail none
      have hbne : branches_to_try branch ≠ [] := by
        unfold branches_to_try; simp
      obtain ⟨elast, helast⟩ := hcons hbne
      rcases hscrape with ⟨e2, he2⟩ | ⟨html, hhtml, hnone⟩
      · refine ⟨e2, ?_, errMarker_ne_empty e2⟩
        simp only [get_file_content_fallback, hle, he2]
      · refine ⟨elast, ?_, errMarker_ne_empty elast⟩
        simp only [get_file_content_fallback, hle, hhtml, hnone, helast]

/-- Concrete transport for the C3 witness: only the contents-API URL
succeeds; every other URL (the stated download URL, all raw URLs, the blob
page) fails. -/
def c3Fetch : String → FetchResult := fun url =>
  if url = apiContentsUrl "u" "r" "f.py" "dev" then .ok "apibody" else .err "boom"

/-- Concrete JSON parse for the C3 witness: the API body carries no inline
content, only a download URL. -/
def c3ParseApi : String → Option ApiFileData := fun s =>
  if s = "apibody" then
    some { content := none, download_url := some "https://dl.example/f.py" }
  else none

/-- Concrete HTML parse for the C3 witness: no code table found. -/
def c3ParseCode : String → Option (List String) := fun _ => none

/-- Closed witness for `file_content_fallback_order_c3`: at a concrete
transport whose download reference fails, the wrapper enters the fallback
with the trace extended by the API and download URLs. -/
theorem file_content_fallback_order_c3_witness :
    get_file_content c3Fetch c3ParseApi c3ParseCode "u" "r" "f.py" "dev"
      = ((get_file_content_fallback c3Fetch c3ParseCode "u" "r" "f.py" "dev").1,
         apiContentsUrl "u" "r" "f.py" "dev" :: "https://dl.example/f.py" ::
           (get_file_content_fallback c3Fetch c3ParseCode "u" "r" "f.py" "dev").2) :=
  (file_content_fallback_order_c3 c3Fetch c3ParseApi c3ParseCode "u" "r" "f.py" "dev"
    "apibody" { content := none, download_url := some "https://dl.example/f.py" }
    "https://dl.example/f.py" "boom"
    (by decide) (by decide) rfl rfl (by decide) (by decide)).2.1

/-! ## Rate-limit / retry wrapper (`handle_rate_limit`, claims C4 and C10)

`handle_rate_limit` (api/utils.py:20-65) loops `for attempt in range(3)`.
Each iteration calls the wrapped function; an `HTTPError` with status 403
and an `X-RateLimit-Remaining` header of zero computes
`wait = max(reset - now, 0) + 1`, sleeps and `continue`s when `wait < 300`,
re-raises otherwise; any other `HTTPError` backs off `2 ** attempt + 1`
seconds and retries unless this was the final attempt, in which case it
re-raises.  When the final attempt itself `continue`s, the `for` loop is
exhausted and the Python function falls off its end, returning `None`.
The embedding takes the outcome of each call attempt and the clock reading
at each attempt as oracles, and returns the wrapper outcome together with
the trace of calls and sleeps. -/

/-- The parts of a `requests.HTTPError` response that the wrapper reads:
status code, the optional `X-RateLimit-Remaining` header (as an integer),
and the `X-RateLimit-Reset` header (`headers.get(..., 0)`). -/
structure HTTPErrorInfo where
  status : Nat
  rateLimitRemaining : Option Int
  rateLimitReset : Option Int
deriving DecidableEq, Repr

/-- Outcome of one invocation of the wrapped function: a value, or a raised
`requests.exceptions.HTTPError`.  (Non-`HTTPError` exceptions are not
caught by the wrapper and are outside this model.) -/
inductive CallOutcome (α : Type) where
  | ok (a : α)
  | httpError (e : HTTPErrorInfo)
deriving DecidableEq, Repr

/-- Observable events of the wrapper: invoking the wrapped function for a
given attempt index, and sleeping for a number of seconds. -/
inductive RLEvent where
  | call (attempt : Nat)
  | sleep (seconds : Int)
deriving DecidableEq, Repr

/-- What the wrapper hands back to its caller: the wrapped function's value,
a re-raised `HTTPError`, or Python's implicit `None` when the `for` loop is
exhausted without returning or raising. -/
inductive RLOutcome (α : Type) where
  | value (a : α)
  | raised (e : HTTPErrorInfo)
  | noneResult
deriving DecidableEq, Repr

/-- `wait_time = max(reset_time - time.time(), 0) + 1` (utils.py:45), with
`reset_time = int(headers.get('X-RateLimit-Reset', 0))`. -/
def waitTime (e : HTTPErrorInfo) (now : Int) : Int :=
  max (e.rateLimitReset.getD 0 - now) 0 + 1

/-- The retry loop of `handle_rate_limit`, recursing on the number of
attempts left out of `retries`; `f k` is the outcome of the `k`-th call of
the wrapped function and `now k` the clock at the `k`-th exception
handling. -/
def hrlAux (f : Nat → CallOutcome α) (now : Nat → Int) (retries : Nat) :
    Nat → List RLEvent → RLOutcome α × List RLEvent
  | 0, tr => (.noneResult, tr)
  | remaining + 1, tr =>
    let attempt := retries - (remaining + 1)
    let tr := tr ++ [RLEvent.call attempt]
    match f attempt with
    | .ok a => (.value a, tr)
    | .httpError e =>
      if e.status = 403 ∧ e.rateLimitRemaining.isSome then
        if e.rateLimitRemaining.getD 0 = 0 then
          if waitTime e (now attempt) < 300 then
            hrlAux f now retries remaining (tr ++ [RLEvent.sleep (waitTime e (now attempt))])
          else (.raised e, tr)
        else if attempt < retries - 1 then
          hrlAux f now retries remaining (tr ++ [RLEvent.sleep (2 ^ attempt + 1)])
        else (.raised e, tr)
      else if attempt < retries - 1 then
        hrlAux f now retries remaining (tr ++ [RLEvent.sleep (2 ^ attempt + 1)])
      else (.raised e, tr)

/-- Embedding of `handle_rate_limit`'s wrapper with its `retries = 3`. -/
def handle_rate_limit (f : Nat → CallOutcome α) (now : Nat → Int) :
    RLOutcome α × List RLEvent :=
  hrlAux f now 3 3 []

/-- A 403 rate-limit error with remaining 0 and reset 0: at clock 0 its wait
is 1 second. -/
def rlErr : HTTPErrorInfo := { status := 403, rateLimitRemaining := some 0, rateLimitReset := some 0 }

/-- Counterexample to claim C4 as stated: when every one of the three
attempts raises a 403 rate-limit error with zero remaining and `wait < 300`,
the third such raise is followed by a sleep but by no further call and no
propagation — the wrapper returns Python's `None` (the `for` loop is
exhausted), which is neither "the retried result" nor a propagated failure. -/
theorem rate_limit_retry_c4_counterexample :
    handle_rate_limit (fun _ => CallOutcome.httpError (α := Unit) rlErr) (fun _ => 0)
      = (RLOutcome.noneResult,
         [RLEvent.call 0, RLEvent.sleep 1, RLEvent.call 1, RLEvent.sleep 1,
          RLEvent.call 2, RLEvent.sleep 1])
    ∧ (∀ a : Unit, RLOutcome.noneResult ≠ RLOutcome.value a)
    ∧ (∀ e, RLOutcome.noneResult (α := Unit) ≠ RLOutcome.raised e) := by
  refine ⟨by decide, fun a => by simp, fun e => by simp⟩

/-- Claim C4 (amended): whenever a call wrapped by the rate-limit handler
raises an HTTP 403 with `X-RateLimit-Remaining: 0` on a NON-final attempt,
with `wait = max(reset - now, 0) + 1`: if `wait < 300` the wrapper sleeps
`wait` seconds and retries the same call, its overall outcome being that of
resuming the loop at the next attempt; if `wait ≥ 300` it propagates the
failure.  (On the final attempt with `wait < 300` it instead sleeps and
returns `None`; see claim C10.) -/
theorem rate_limit_retry_c4 (f : Nat → CallOutcome α) (now : Nat → Int)
    (remaining : Nat) (tr : List RLEvent) (e : HTTPErrorInfo)
    (hf : f (3 - (remaining + 2)) = .httpError e)
    (hst : e.status = 403) (hrem : e.rateLimitRemaining = some 0) :
    (waitTime e (now (3 - (remaining + 2))) < 300 →
      hrlAux f now 3 (remaining + 2) tr
        = hrlAux f now 3 (remaining + 1)
            (tr ++ [RLEvent.call (3 - (remaining + 2)),
                    RLEvent.sleep (waitTime e (now (3 - (remaining + 2))))]))
    ∧ (¬ waitTime e (now (3 - (remaining + 2))) < 300 →
      hrlAux f now 3 (remaining + 2) tr
        = (.raised e, tr ++ [RLEvent.call (3 - (remaining + 2))])) := by
  constructor
  · intro hw
    simp only [hrlAux, hf, hst, hrem, Option.isSome_some, Option.getD_some,
      if_pos hw, and_self, if_pos trivial, List.append_assoc, List.cons_append,
      List.nil_append]
  · intro hw
    simp only [hrlAux, hf, hst, hrem, Option.isSome_some, Option.getD_some,
      if_neg hw, and_self, if_pos trivial]

/-- Closed witness for `rate_limit_retry_c4`: a first-attempt rate-limit
error with a 2-second wait is retried (and the retried call's value is
returned), while one with a huge reset propagates. -/
theorem rate_limit_retry_c4_witness :
    (waitTime { status := 403, rateLimitRemaining := some 0, rateLimitReset := some 1 }
        ((fun _ => (0 : Int)) (3 - (1 + 2))) < 300 →
      hrlAux (fun k => if k = 0 then
            CallOutcome.httpError (α := Nat)
              { status := 403, rateLimitRemaining := some 0, rateLimitReset := some 1 }
          else CallOutcome.ok 7) (fun _ => 0) 3 (1 + 2) []
        = hrlAux (fun k => if k = 0 then
            CallOutcome.httpError (α := Nat)
              { status := 403, rateLimitRemaining := some 0, rateLimitReset := some 1 }
          else CallOutcome.ok 7) (fun _ => 0) 3 (1 + 1)
            ([] ++ [RLEvent.call (3 - (1 + 2)),
                    RLEvent.sleep (waitTime
                      { status := 403, rateLimitRemaining := some 0, rateLimitReset := some 1 }
                      ((fun _ => (0 : Int)) (3 - (1 + 2))))]))
    ∧ (¬ waitTime { status := 403, rateLimitRemaining := some 0, rateLimitReset := some 1 }
        ((fun _ => (0 : Int)) (3 - (1 + 2))) < 300 →
      hrlAux (fun k => if k = 0 then
            CallOutcome.httpError (α := Nat)
              { status := 403, rateLimitRemaining := some 0, rateLimitReset := some 1 }
          else CallOutcome.ok 7) (fun _ => 0) 3 (1 + 2) []
        = (.raised { status := 403, rateLimitRemaining := some 0, rateLimitReset := some 1 },
           [] ++ [RLEvent.call (3 - (1 + 2))])) :=
  rate_limit_retry_c4
    (fun k => if k = 0 then
        CallOutcome.httpError { status := 403, rateLimitRemaining := some 0, rateLimitReset := some 1 }
      else CallOutcome.ok 7)
    (fun _ => 0) 1 [] _ (by decide) rfl rfl

/-- Claim C10: when the first two attempts raise retryable HTTP errors and
the third (final) attempt raises a 403 rate-limit error with zero remaining
and computed wait below 300 seconds, the wrapper sleeps that wait, exits
its retry loop, and hands `None` back to the caller — it neither retries a
fourth time (the trace ends right after the final sleep) nor propagates an
error. -/
theorem rate_limit_final_attempt_c10 (f : Nat → CallOutcome α) (now : Nat → Int)
    (e0 e1 e2 : HTTPErrorInfo)
    (h0 : f 0 = .httpError e0)
    (h1 : f 1 = .httpError e1)
    (hc0 : e0.status = 403 → e0.rateLimitRemaining.isSome →
      e0.rateLimitRemaining.getD 0 = 0 → waitTime e0 (now 0) < 300)
    (hc1 : e1.status = 403 → e1.rateLimitRemaining.isSome →
      e1.rateLimitRemaining.getD 0 = 0 → waitTime e1 (now 1) < 300)
    (h2 : f 2 = .httpError e2)
    (hst : e2.status = 403) (hrem : e2.rateLimitRemaining = some 0)
    (hw : waitTime e2 (now 2) < 300) :
    (handle_rate_limit f now).1 = RLOutcome.noneResult
    ∧ ∃ pre, (handle_rate_limit f now).2
        = pre ++ [RLEvent.call 2, RLEvent.sleep (waitTime e2 (now 2))] := by
  have step : ∀ (k : Nat) (ek : HTTPErrorInfo) (tr : List RLEvent), k ≤ 1 →
      f k = .httpError ek →
      (ek.status = 403 → ek.rateLimitRemaining.isSome →
        ek.rateLimitRemaining.getD 0 = 0 → waitTime ek (now k) < 300) →
      ∃ ev, hrlAux f now 3 (3 - k) tr = hrlAux f now 3 (3 - k - 1) (tr ++ [RLEvent.call k, ev]) := by
    intro k ek tr hk hfk hck
    have hrem3 : 3 - k = (1 - k) + 2 := by omega
    have hlt : k < 3 - 1 := by omega
    have hattempt : 3 - ((1 - k) + 2) = k := by omega
    rw [hrem3]
    by_cases hrl : ek.status = 403 ∧ ek.rateLimitRemaining.isSome
    · by_cases hz : ek.rateLimitRemaining.getD 0 = 0
      · refine ⟨RLEvent.sleep (waitTime ek (now k)), ?_⟩
        have hwk := hck hrl.1 hrl.2 hz
        simp only [hrlAux, hattempt, hfk, if_pos hrl, if_pos hz, if_pos hwk]
        try simp
      · refine ⟨RLEvent.sleep (2 ^ k + 1), ?_⟩
        simp only [hrlAux, hattempt, hfk, if_pos hrl, if_neg hz, if_pos hlt]
        try simp
    · refine ⟨RLEvent.sleep (2 ^ k + 1), ?_⟩
      simp only [hrlAux, hattempt, hfk, if_neg hrl, if_pos hlt]
      try simp
  obtain ⟨ev0, hev0⟩ := step 0 e0 [] (by omega) h0 hc0
  obtain ⟨ev1, hev1⟩ := step 1 e1 ([] ++ [RLEvent.call 0, ev0]) (by omega) h1 hc1
  have hfinal : ∀ tr, hrlAux f now 3 1 tr
      = (RLOutcome.noneResult, tr ++ [RLEvent.call 2, RLEvent.sleep (waitTime e2 (now 2))]) := by
    intro tr
    have hrl : e2.status = 403 ∧ e2.rateLimitRemaining.isSome := by
      exact ⟨hst, by rw [hrem]; rfl⟩
    have hz : e2.rateLimitRemaining.getD 0 = 0 := by rw [hrem]; rfl
    simp only [hrlAux, h2, if_pos hrl, if_pos hz, if_pos hw]
    try simp
  have h30 : (3 : Nat) - 0 = 3 := rfl
  have h31 : (3 : Nat) - 0 - 1 = 2 := rfl
  have h32 : (3 : Nat) - 1 = 2 := rfl
  have h33 : (3 : Nat) - 1 - 1 = 1 := rfl
  unfold handle_rate_limit
  rw [show (3 : Nat) = 3 - 0 from rfl] at hev0
  rw [h30] at hev0
  rw [h31] at hev0
  rw [h32] at hev1
  rw [h33] at hev1
  rw [hev0, hev1, hfinal]
  exact ⟨rfl, _, rfl⟩

/-- Closed witness for `rate_limit_final_attempt_c10`: three consecutive
rate-limit errors with 1-second waits make the wrapper return `None` after
its final sleep. -/
theorem rate_limit_final_attempt_c10_witness :
    (handle_rate_limit (fun _ => CallOutcome.httpError (α := Nat) rlErr) (fun _ => 0)).1
      = RLOutcome.noneResult
    ∧ ∃ pre, (handle_rate_limit (fun _ => CallOutcome.httpError (α := Nat) rlErr)
        (fun _ => 0)).2
        = pre ++ [RLEvent.call 2, RLEvent.sleep (waitTime rlErr ((fun _ => (0 : Int)) 2))] :=
  rate_limit_final_attempt_c10 (fun _ => CallOutcome.httpError rlErr) (fun _ => 0)
    rlErr rlErr rlErr rfl rfl (fun _ _ _ => by decide) (fun _ _ _ => by decide)
    rfl rfl rfl (by decide)

/-! ## Directory download rebasing (`RepositoryService.download_directory`, claim C5)

`download_directory` (repo.py:154-179) walks the requested path, keeps
`"file"`-type records, strips the requested root from each record's path
when — and only when — the record's path starts with that exact string,
and hands the list to `DownloadService.download_files`, which joins each
path onto the destination directory. -/

/-- One entry of the list handed to `download_files`: the dictionaries with
`"url"` and `"path"` keys built at repo.py:170-173. -/
structure DLFile where
  url : String
  path : String
deriving DecidableEq, Repr

/-- Python `os.path.join(a, b)` (posix, two arguments): an absolute `b`
replaces `a`; otherwise the parts are joined with exactly one slash. -/
def pyPathJoin (a b : String) : String :=
  if pyStartsWith "/" b then b
  else if a = "" then b
  else if a.data.getLast? = some '/' then a ++ b
  else a ++ "/" ++ b

/-- The per-record rebasing of `download_directory` (repo.py:166-168):
`if rel_path.startswith(path): rel_path = rel_path[len(path):].lstrip('/')`. -/
def rebaseRel (requestedPath recordPath : String) : String :=
  if pyStartsWith requestedPath recordPath then
    pyLstrip '/' (String.mk (recordPath.data.drop requestedPath.data.length))
  else recordPath

/-- The download list built by `download_directory` (repo.py:160-173): keep
only records whose `"type"` is `"file"`, rebase each record's path. -/
def download_directory_files (requestedPath : String) (allFiles : List FileRec) :
    List DLFile :=
  (allFiles.filter (fun f => f.type = "file")).map
    (fun f => { url := f.url, path := rebaseRel requestedPath f.path })

/-- `DownloadService.download_files` (downloader.py:90-113): entries with a
falsy url or path are skipped; every other entry is enqueued with
destination `os.path.join(base_dir, path)`.  This returns the ordered list
of destinations enqueued. -/
def download_files_destinations (baseDir : String) (files : List DLFile) :
    List String :=
  (files.filter (fun f => f.url ≠ "" ∧ f.path ≠ "")).map
    (fun f => pyPathJoin baseDir f.path)

/-- The concrete record of the claim's example: `util.py` living under
`src/main` in the repository (walker records carry repository-relative
paths with no leading slash). -/
def c5Rec : FileRec :=
  { name := "util.py", path := "src/main/util.py", type := "file",
    url := "https://raw.example/util.py", size := 1, sha := "" }

/-- Counterexample to claim C5 as stated: with the claim's own requested
path `"/src/main"`, the record path `"src/main/util.py"` does not start
with the requested string, so nothing is stripped and the file is enqueued
to `destination/src/main/util.py` — not to `destination/util.py` as the
claim requires. -/
theorem download_rebasing_c5_counterexample :
    download_files_destinations "destination"
        (download_directory_files "/src/main" [c5Rec])
      = ["destination/src/main/util.py"]
    ∧ download_files_destinations "destination"
        (download_directory_files "/src/main" [c5Rec])
      ≠ ["destination/util.py"] := by
  constructor
  · decide
  · decide

/-- Claim C5 (amended): every enqueued destination is the caller-supplied
destination joined with the record's path rebased as the code does — the
requested-root prefix is stripped (followed by stripping leading slashes)
exactly when the record's path starts with the requested path string, and
the path is left whole otherwise; a requested path with a leading slash
(such as `"/src/main"`) is not a string prefix of the walker's
repository-relative record paths, so stripping happens for the
repository-relative form `"src/main"`, under which `util.py` is written to
`destination/util.py`.  Only records of type `"file"` (with truthy url and
rebased path) are enqueued. -/
theorem download_rebasing_c5 (baseDir requestedPath : String)
    (allFiles : List FileRec) :
    (download_files_destinations baseDir (download_directory_files requestedPath allFiles)
      = (((allFiles.filter (fun f => f.type = "file")).filter
            (fun f => f.url ≠ "" ∧ rebaseRel requestedPath f.path ≠ "")).map
          (fun f => pyPathJoin baseDir (rebaseRel requestedPath f.path))))
    ∧ (∀ p, pyStartsWith requestedPath p = true →
        rebaseRel requestedPath p
          = pyLstrip '/' (String.mk (p.data.drop requestedPath.data.length)))
    ∧ (∀ p, pyStartsWith requestedPath p = false → rebaseRel requestedPath p = p)
    ∧ download_files_destinations "destination"
        (download_directory_files "src/main" [c5Rec])
      = ["destination/util.py"] := by
  refine ⟨?_, ?_, ?_, by decide⟩
  · unfold download_files_destinations download_directory_files
    induction allFiles.filter (fun f => f.type = "file") with
    | nil => rfl
    | cons x xs ih =>
      by_cases hx : x.url ≠ "" ∧ rebaseRel requestedPath x.path ≠ ""
      · simp only [List.map_cons, List.filter_cons]
        rw [if_pos (by simpa using hx), if_pos (by simpa using hx)]
        simpa using ih
      · simp only [List.map_cons, List.filter_cons]
        rw [if_neg (by simpa using hx), if_neg (by simpa using hx)]
        exact ih
  · intro p hp
    simp [rebaseRel, hp]
  · intro p hp
    simp [rebaseRel, hp]

/-- Closed witness for `download_rebasing_c5`: the amended statement at the
concrete inputs of the claim's example. -/
theorem download_rebasing_c5_witness :
    (download_files_destinations "destination"
        (download_directory_files "src/main" [c5Rec])
      = ((([c5Rec].filter (fun f => f.type = "file")).filter
            (fun f => f.url ≠ "" ∧ rebaseRel "src/main" f.path ≠ "")).map
          (fun f => pyPathJoin "destination" (rebaseRel "src/main" f.path))))
    ∧ (∀ p, pyStartsWith "src/main" p = true →
        rebaseRel "src/main" p
          = pyLstrip '/' (String.mk (p.data.drop ("src/main" : String).data.length)))
    ∧ (∀ p, pyStartsWith "src/main" p = false → rebaseRel "src/main" p = p)
    ∧ download_files_destinations "destination"
        (download_directory_files "src/main" [c5Rec])
      = ["destination/util.py"] :=
  download_rebasing_c5 "destination" "src/main" [c5Rec]

/-! ## Disk-cache key (`cache_response`, claim C7)

The decorator's key is
`f"{func.__name__}_{hash(str(args) + str(sorted(kwargs.items())))}"`
(utils.py:81).  `hash` is Python's built-in: for `str` it is salted per
process (PYTHONHASHSEED), so the embedding takes the process's hash
function as a parameter; `str(args)` is the `repr` of the positional-args
tuple, so the same binding passed positionally or by keyword produces
different hash inputs. -/

/-- The ASCII single-quote character used by Python `repr` of strings. -/
def singleQuote : Char := Char.ofNat 39

/-- A Python argument value (the arguments the wrapped resolver methods
take are strings; integers are included for generality). -/
inductive PyVal where
  | int (n : Int)
  | str (s : String)
deriving DecidableEq, Repr

/-- Python `repr` of a value: numbers print bare, strings print quoted. -/
def pyRepr : PyVal → String
  | .int n => toString n
  | .str s => String.singleton singleQuote ++ s ++ String.singleton singleQuote

/-- Python `str(args)` for the tuple of positional arguments:
`"()"`, `"(v,)"`, or `"(v1, v2, ...)"`. -/
def pyReprArgsTuple (args : List PyVal) : String :=
  match args with
  | [] => "()"
  | [a] => "(" ++ pyRepr a ++ ",)"
  | a :: rest =>
    "(" ++ pyRepr a ++ String.join (rest.map (fun v => ", " ++ pyRepr v)) ++ ")"

/-- Insertion of one keyword item into a sorted item list (Python `sorted`
compares the `(key, value)` tuples; keyword names are unique, so the key
comparison decides). -/
def insertKwItem (x : String × PyVal) : List (String × PyVal) → List (String × PyVal)
  | [] => [x]
  | y :: ys => if pyStrLe x.1 y.1 then x :: y :: ys else y :: insertKwItem x ys

/-- Python `sorted(kwargs.items())` as a stable insertion sort by key. -/
def pySortedKwItems : List (String × PyVal) → List (String × PyVal)
  | [] => []
  | x :: xs => insertKwItem x (pySortedKwItems xs)

/-- Python `str(sorted(kwargs.items()))`:
`"[]"` or `"[('k1', v1), ('k2', v2), ...]"`. -/
def pyReprSortedKwargs (kwargs : List (String × PyVal)) : String :=
  let itemRepr := fun (kv : String × PyVal) =>
    "(" ++ pyRepr (.str kv.1) ++ ", " ++ pyRepr kv.2 ++ ")"
  match pySortedKwItems kwargs with
  | [] => "[]"
  | x :: rest =>
    "[" ++ itemRepr x ++ String.join (rest.map (fun v => ", " ++ itemRepr v)) ++ "]"

/-- The string the decorator feeds to `hash`:
`str(args) + str(sorted(kwargs.items()))` (utils.py:81). -/
def cacheKeyInput (args : List PyVal) (kwargs : List (String × PyVal)) : String :=
  pyReprArgsTuple args ++ pyReprSortedKwargs kwargs

/-- The decorator's cache key, parameterized by the process's built-in
string hash:
`f"{func.__name__}_{hash(str(args) + str(sorted(kwargs.items())))}"`. -/
def cache_key (pyHash : String → Int) (funcName : String)
    (args : List PyVal) (kwargs : List (String × PyVal)) : String :=
  funcName ++ "_" ++ toString (pyHash (cacheKeyInput args kwargs))

/-- Claim C7 evaluated on the code: the key is NOT a function of the
order-independent argument-binding set.  (1) The same single binding passed
positionally (`f('octocat')`) versus by keyword (`f(username='octocat')`)
produces different hash inputs, hence keys that agree only if the process
hash happens to collide on them; (2) the key depends on the process's hash
function, so two runs with different hash seeds (Python salts `hash(str)`
per process) produce different keys for the identical call; (3) what does
hold is order-independence in the keyword arguments alone. -/
theorem cache_key_instability_c7 :
    cacheKeyInput [PyVal.str "octocat"] []
      ≠ cacheKeyInput [] [("username", PyVal.str "octocat")]
    ∧ (∃ h1 h2 : String → Int,
        cache_key h1 "get_user_repositories" [PyVal.str "octocat"] []
          ≠ cache_key h2 "get_user_repositories" [PyVal.str "octocat"] [])
    ∧ (∀ h : String → Int,
        cache_key h "get_repository_files" []
            [("username", PyVal.str "u"), ("repo_name", PyVal.str "r")]
          = cache_key h "get_repository_files" []
              [("repo_name", PyVal.str "r"), ("username", PyVal.str "u")]) := by
  refine ⟨by decide, ⟨fun _ => 0, fun _ => 1, by decide⟩, fun h => rfl⟩

/-! ## Repository Service connectivity gate (`RepositoryService`, claim C8)

Every public method of `RepositoryService` (repo.py) opens with
`if not self.network_service.is_connected(): return <failure>`.  The
embedding takes the monitor's answer as a boolean and everything behind the
gate as an oracle, and returns the result together with the list of
collaborator calls made, so "never invokes the GitHub API or the download
service" is the statement that the call list is empty. -/

/-- `RepositoryService.get_repository_files` (repo.py:50-82): gate, then the
branch re-verification plus listing call, abstracted as `listing`. -/
def svc_get_repository_files (connected : Bool)
    (listing : Except String (List FileRec)) : List FileRec × List String :=
  if connected then
    match listing with
    | .ok files => (files, ["github_api.get_repository_files"])
    | .error _ => ([], ["github_api.get_repository_files"])
  else ([], [])

/-- `RepositoryService.get_file_content` (repo.py:84-106). -/
def svc_get_file_content (connected : Bool)
    (apiCall : Except String String) : String × List String :=
  if connected then
    match apiCall with
    | .ok s => (s, ["github_api.get_file_content"])
    | .error e => ("Error retrieving file content: " ++ e, ["github_api.get_file_content"])
  else ("Cannot fetch file content: No internet connection", [])

/-- `RepositoryService.download_file` (repo.py:108-133). -/
def svc_download_file (connected : Bool)
    (enqueueAndWait : Except String Bool) : Bool × List String :=
  if connected then
    match enqueueAndWait with
    | .ok b => (b, ["downloader.download_file", "downloader.wait_for_downloads"])
    | .error _ => (false, ["downloader.download_file", "downloader.wait_for_downloads"])
  else (false, [])

/-- `RepositoryService.download_directory` (repo.py:135-182): gate, then the
recursive walk plus bulk enqueue plus wait, abstracted as one oracle. -/
def svc_download_directory (connected : Bool)
    (walkAndDownload : Except String Bool) : Bool × List String :=
  if connected then
    match walkAndDownload with
    | .ok b => (b, ["github_api.get_directory_contents_recursive",
                    "downloader.download_files", "downloader.wait_for_downloads"])
    | .error _ => (false, ["github_api.get_directory_contents_recursive",
                    "downloader.download_files", "downloader.wait_for_downloads"])
  else (false, [])

/-- `RepositoryService.clone_repository` (repo.py:184-246): gate, then the
git subprocess work, abstracted as one oracle. -/
def svc_clone_repository (connected : Bool)
    (gitWork : Except String Bool) : Bool × List String :=
  if connected then
    match gitWork with
    | .ok b => (b, ["subprocess.git"])
    | .error _ => (false, ["subprocess.git"])
  else (false, [])

/-- Claim C8: with the Network Monitor reporting no connectivity, every
public `RepositoryService` file, clone, or download operation returns its
failure value — empty list, `false`, or the explicit no-connection message —
with an empty collaborator-call list: the GitHub API and the download
service are never invoked. -/
theorem connectivity_gate_c8 (listing : Except String (List FileRec))
    (apiCall : Except String String) (dl walkDl gitWork : Except String Bool) :
    svc_get_repository_files false listing = ([], [])
    ∧ svc_get_file_content false apiCall
        = ("Cannot fetch file content: No internet connection", [])
    ∧ svc_download_file false dl = (false, [])
    ∧ svc_download_directory false walkDl = (false, [])
    ∧ svc_clone_repository false gitWork = (false, []) :=
  ⟨rfl, rfl, rfl, rfl, rfl⟩

/-! ## Download waiting (`DownloadService.wait_for_downloads`, claim C9)

`wait_for_downloads` (downloader.py:139-175) repeatedly filters its local
`task_ids` list down to the not-yet-completed ids, sleeping between rounds,
until the list is empty or the optional timeout is exceeded; it then
returns `all(active_downloads.get(id).success for id in task_ids)` — over
the list that the loop has just emptied.  `completed t id` is the
`"completed"` field of `get_download_status(id)` at poll round `t`,
`success id` the task's success flag, `timeout` is measured in poll rounds
(Python's `if timeout and ...` makes `None` and `0` both disable the
check), and `fuel` bounds how many sleep rounds the embedding unrolls (the
Python loop is unbounded; under the theorem's hypotheses the bound is never
hit). -/

/-- `if timeout and (time.time() - start_time) > timeout` (downloader.py:165),
with elapsed time abstracted to poll rounds. -/
def timeoutExceeded (timeout : Option Nat) (elapsed : Nat) : Bool :=
  match timeout with
  | none => false
  | some tmo => decide (0 < tmo) && decide (tmo < elapsed)

/-- Embedding of `wait_for_downloads`: the completion loop, then the final
`all(...)` check over the (by then emptied) `task_ids` list. -/
def wait_for_downloads (completed : Nat → String → Bool) (success : String → Bool)
    (timeout : Option Nat) : Nat → Nat → List String → Bool
  | fuel, t, taskIds =>
    if taskIds = [] then taskIds.all success
    else
      let remaining := taskIds.filter (fun id => !(completed t id))
      if remaining = [] then remaining.all success
      else if timeoutExceeded timeout t then false
      else
        match fuel with
        | 0 => false
        | f + 1 => wait_for_downloads completed success timeout f (t + 1) remaining

/-- Claim C9: for every non-empty task list whose tasks all reach a terminal
state (round `N` at the latest, with completion monotone) before the
timeout can trigger, `wait_for_downloads` returns `true` for EVERY possible
assignment of success flags — failed downloads included — because the final
all-successful check iterates over the task-id list only after the loop has
emptied it. -/
theorem wait_for_downloads_ignores_flags_c9
    (completed : Nat → String → Bool) (success : String → Bool)
    (timeout : Option Nat) (fuel t N : Nat) (taskIds : List String)
    (hmono : ∀ t' id, completed t' id = true → completed (t' + 1) id = true)
    (hN : ∀ id ∈ taskIds, completed N id = true)
    (hfuel : N < t + fuel)
    (htime : ∀ t', t' ≤ N → timeoutExceeded timeout t' = false) :
    wait_for_downloads completed success timeout fuel t taskIds = true := by
  have hup : ∀ id t', completed N id = true → N ≤ t' → completed t' id = true := by
    intro id t' hc hle
    induction t', hle using Nat.le_induction with
    | base => exact hc
    | succ n hn ihn => exact hmono n id ihn
  induction fuel generalizing t taskIds with
  | zero =>
    cases hnil : taskIds with
    | nil => rw [wait_for_downloads]; simp
    | cons a as =>
      subst hnil
      have hall : ∀ id ∈ a :: as, completed t id = true := fun id hid =>
        hup id t (hN id hid) (by omega)
      have hrem : (a :: as).filter (fun id => !(completed t id)) = [] := by
        rw [List.filter_eq_nil_iff]
        intro id hid
        simp [hall id hid]
      rw [wait_for_downloads]
      simp [hrem]
  | succ f ih =>
    by_cases hnil : taskIds = []
    · rw [wait_for_downloads]; simp [hnil]
    · by_cases hrem : taskIds.filter (fun id => !(completed t id)) = []
      · rw [wait_for_downloads]
        simp [hnil, hrem]
      · have htN : t < N := by
          by_contra hge
          apply hrem
          rw [List.filter_eq_nil_iff]
          intro id hid
          simp [hup id t (hN id hid) (by omega)]
        have hto : timeoutExceeded timeout t = false := htime t (by omega)
        rw [wait_for_downloads]
        simp only [if_neg hnil, if_neg hrem, hto, Bool.false_eq_true, if_neg
          (by simp : ¬(false = true))]
        exact ih (t + 1) (taskIds.filter (fun id => !(completed t id)))
          (fun id hid => hN id (List.mem_of_mem_filter hid)) (by omega)

/-- Closed witness for `wait_for_downloads_ignores_flags_c9`: one task,
already terminal, whose success flag is `false` — the wait still returns
`true`. -/
theorem wait_for_downloads_ignores_flags_c9_witness :
    wait_for_downloads (fun _ _ => true) (fun _ => false) none 1 0 ["task_1"] = true :=
  wait_for_downloads_ignores_flags_c9 (fun _ _ => true) (fun _ => false) none 1 0 0
    ["task_1"] (fun _ _ h => h) (fun _ _ => rfl) (by omega) (fun _ _ => rfl)

end GitBrowse
